import Mathlib

/-!
Shallow embedding of the spatial-navigation core of the record-room app:
the dynamic platform-graph builder (config/platforms.ts) and the avatar
movement state machine (hooks/useCatMovement.ts), together with the
constants they share.  JS numbers that hold integral values are modelled
as Nat/Int; world coordinates (which involve halves and tenths) as Rat.
-/

namespace RecordRoom

/-- Platform variants, from the `type` union in types/index.ts. -/
inductive PlatformType
  | shelf
  | window
  | medal
  | floor
deriving DecidableEq, Repr

/-- A 3D world anchor `{x, y, z}`. -/
structure Vec3 where
  x : ℚ
  y : ℚ
  z : ℚ
deriving DecidableEq, Repr

/-- Logical grid coordinate `{row, col}`. -/
structure Grid where
  row : ℕ
  col : ℕ
deriving DecidableEq, Repr

/-- Nullable adjacency pointers `{left, right, up, down}`. -/
structure Connections where
  left : Option ℤ
  right : Option ℤ
  up : Option ℤ
  down : Option ℤ
deriving DecidableEq, Repr

/-- A node of the navigation graph, from `Platform` in types/index.ts. -/
structure Platform where
  id : ℤ
  grid : Grid
  position : Vec3
  connections : Connections
  type : PlatformType
  records : List ℕ
deriving DecidableEq, Repr

/-- Floor sentinel id, from types/index.ts. -/
def FLOOR_PLATFORM_ID : ℤ := -1

/-- Floor y coordinate, from types/index.ts. -/
def FLOOR_Y : ℚ := -3

/-- Floor z coordinate, from types/index.ts. -/
def FLOOR_Z : ℚ := 2

/-- Size of each record/window (config/platforms.ts). -/
def ITEM_SIZE : ℚ := 2

/-- Total wall height (config/platforms.ts). -/
def WALL_HEIGHT : ℚ := 6

/-- Gap between columns (config/platforms.ts). -/
def GAP_WIDTH : ℚ := 1/2

/-- Gap between rows (config/platforms.ts). -/
def GAP_HEIGHT : ℚ := 1/2

/-- Vertical offset of the whole wall (config/platforms.ts). -/
def VERTICAL_OFFSET : ℚ := 3/5

/-- `FLOOR_BOUNDS.minX` (config/platforms.ts). -/
def FLOOR_BOUNDS_minX : ℚ := -10

/-- `FLOOR_BOUNDS.maxX` (config/platforms.ts). -/
def FLOOR_BOUNDS_maxX : ℚ := 15

/-- The kinds of special objects (config/platforms.ts). -/
inductive SpecialObjectType
  | window
  | medal
deriving DecidableEq, Repr

/-- A configured special-object placement (config/platforms.ts). -/
structure SpecialObjectPosition where
  type : SpecialObjectType
  row : ℕ
  col : ℕ
deriving DecidableEq, Repr

/-- The fixed special-object configuration from config/platforms.ts. -/
def SPECIAL_OBJECT_POSITIONS : List SpecialObjectPosition :=
  [⟨.window, 0, 2⟩, ⟨.medal, 1, 4⟩, ⟨.window, 0, 5⟩]

/-- Special object types map into the platform `type` field verbatim. -/
def SpecialObjectType.toPlatformType : SpecialObjectType → PlatformType
  | .window => .window
  | .medal => .medal

/-- `calculatePosition(row, col)` from config/platforms.ts. -/
def calculatePosition (row col : ℕ) : Vec3 :=
  let BASE_X : ℚ := -4
  let startX : ℚ :=
    if col = 0 then BASE_X
    else BASE_X + ITEM_SIZE + GAP_WIDTH + ((col : ℚ) - 1) * (ITEM_SIZE + GAP_WIDTH)
  let startY : ℚ :=
    WALL_HEIGHT / 2 - GAP_HEIGHT - ITEM_SIZE / 2 - (row : ℚ) * (ITEM_SIZE + GAP_HEIGHT)
      + VERTICAL_OFFSET
  ⟨startX, startY, 1/10⟩

/-- State threaded through the special-object creation pass. -/
structure SpecialBuild where
  platforms : List Platform
  occupied : List (ℕ × ℕ)
  nextId : ℕ
deriving Repr

/-- One iteration of the `SPECIAL_OBJECT_POSITIONS.forEach` creation loop:
skip a placement whose position is already occupied, otherwise create the
special platform and record its position. -/
def addSpecial (st : SpecialBuild) (cfg : SpecialObjectPosition) : SpecialBuild :=
  if (cfg.row, cfg.col) ∈ st.occupied then st
  else
    { platforms := st.platforms ++
        [{ id := (st.nextId : ℤ)
           grid := ⟨cfg.row, cfg.col⟩
           position := calculatePosition cfg.row cfg.col
           connections := ⟨none, none, none, none⟩
           type := cfg.type.toPlatformType
           records := [] }]
      occupied := st.occupied ++ [(cfg.row, cfg.col)]
      nextId := st.nextId + 1 }

/-- The completed special-object creation pass. -/
def specialBuild : SpecialBuild :=
  SPECIAL_OBJECT_POSITIONS.foldl addSpecial ⟨[], [], 0⟩

/-- State threaded through the column-by-column shelf creation scan:
created shelves (in creation order), the `shelvesByRow` lists, the next
platform id, and the next track index to place. -/
structure ScanState where
  shelves : List Platform
  row0 : List Platform
  row1 : List Platform
  nextId : ℕ
  trackIndex : ℕ
deriving Repr

/-- `shelvesByRow[row].push(p)`. -/
def pushRow (st : ScanState) (row : ℕ) (p : Platform) : ScanState :=
  if row = 0 then { st with row0 := st.row0 ++ [p] }
  else { st with row1 := st.row1 ++ [p] }

/-- One `(row, col)` slot of the creation scan.  Returns the new state and
whether the inner row loop was exited by the `trackIndex >= trackCount`
break.  An occupied slot re-registers the special platform sitting there
into `shelvesByRow`; an unoccupied slot creates a single-record shelf
while tracks remain. -/
def processSlot (t : ℤ) (specials : List Platform) (occupied : List (ℕ × ℕ))
    (st : ScanState) (row col : ℕ) : ScanState × Bool :=
  if (row, col) ∈ occupied then
    match SPECIAL_OBJECT_POSITIONS.find? (fun s => s.row == row && s.col == col) with
    | some cfg =>
      if cfg.type = .medal ∨ cfg.type = .window then
        match (specials ++ st.shelves).find?
            (fun p => p.grid.row == row && p.grid.col == col) with
        | some sp => (pushRow st row sp, false)
        | none => (st, false)
      else (st, false)
    | none => (st, false)
  else if (st.trackIndex : ℤ) ≥ t then (st, true)
  else
    let shelf : Platform :=
      { id := (st.nextId : ℤ)
        grid := ⟨row, col⟩
        position := calculatePosition row col
        connections := ⟨none, none, none, none⟩
        type := .shelf
        records := [st.trackIndex] }
    (pushRow
      { st with
        shelves := st.shelves ++ [shelf]
        nextId := st.nextId + 1
        trackIndex := st.trackIndex + 1 } row shelf, false)

/-- One column of the creation scan: row 0 then row 1, with the break in
row 0 skipping row 1. -/
def processCol (t : ℤ) (specials : List Platform) (occupied : List (ℕ × ℕ))
    (st : ScanState) (col : ℕ) : ScanState :=
  let r0 := processSlot t specials occupied st 0 col
  if r0.2 then r0.1
  else (processSlot t specials occupied r0.1 1 col).1

/-- `Math.ceil((trackCount + specialObjectCount) / ROWS)` with `ROWS = 2`;
for an integer argument `n`, `ceil(n / 2) = fdiv (n + 1) 2`. -/
def columnsNeeded (t : ℤ) : ℤ :=
  Int.fdiv (t + (SPECIAL_OBJECT_POSITIONS.length : ℤ) + 1) 2

/-- The columns visited by `for (let col = 0; col <= columnsNeeded; col++)`. -/
def colList (t : ℤ) : List ℕ :=
  if columnsNeeded t < 0 then []
  else List.range ((columnsNeeded t).toNat + 1)

/-- The initial scan state: shelf ids continue after the special ids. -/
def initScan : ScanState :=
  ⟨[], [], [], specialBuild.nextId, 0⟩

/-- The completed shelf-creation scan for a given track count. -/
def runScan (t : ℤ) : ScanState :=
  (colList t).foldl (processCol t specialBuild.platforms specialBuild.occupied) initScan

/-- The floor sentinel platform appended after the scan. -/
def floorPlatform : Platform :=
  { id := FLOOR_PLATFORM_ID
    grid := ⟨2, 0⟩
    position := ⟨0, FLOOR_Y, FLOOR_Z⟩
    connections := ⟨none, none, none, none⟩
    type := .floor
    records := [] }

/-- `shelvesByRow[row] || []`. -/
def rowListOf (st : ScanState) (row : ℕ) : List Platform :=
  if row = 0 then st.row0 else if row = 1 then st.row1 else []

/-- Candidate choice for `sort((a, b) => b.col - a.col)[0]`: keep the
platform with the larger column, first seen winning ties. -/
def bestLeft : Option Platform → Platform → Option Platform
  | none, p => some p
  | some q, p => if q.grid.col < p.grid.col then some p else some q

/-- Candidate choice for `sort((a, b) => a.col - b.col)[0]`: keep the
platform with the smaller column, first seen winning ties. -/
def bestRight : Option Platform → Platform → Option Platform
  | none, p => some p
  | some q, p => if p.grid.col < q.grid.col then some p else some q

/-- `findPlatformInRow(row, col, 'left')`: rightmost platform of the row
list with column strictly below `col`. -/
def findInRowLeft (l : List Platform) (col : ℕ) : Option Platform :=
  (l.filter (fun p => p.grid.col < col)).foldl bestLeft none

/-- `findPlatformInRow(row, col, 'right')`: leftmost platform of the row
list with column strictly above `col`. -/
def findInRowRight (l : List Platform) (col : ℕ) : Option Platform :=
  (l.filter (fun p => col < p.grid.col)).foldl bestRight none

/-- `findPlatformInRow(row, col, 'exact')`. -/
def findInRowExact (l : List Platform) (col : ℕ) : Option Platform :=
  l.find? (fun p => p.grid.col == col)

/-- `findSpecialObjectAt(row, col)`: first window/medal platform of the
whole built set sitting at that grid position. -/
def findSpecialObjectAt (allP : List Platform) (row col : ℕ) : Option Platform :=
  allP.find? (fun p =>
    (p.type == PlatformType.window || p.type == PlatformType.medal)
      && p.grid.row == row && p.grid.col == col)

/-- The first connection pass, applied to shelves and medals. -/
def pass1Conns (allP : List Platform) (st : ScanState) (p : Platform) : Connections :=
  let row := p.grid.row
  let col := p.grid.col
  let left : Option ℤ :=
    if 0 < col then
      match findSpecialObjectAt allP row (col - 1) with
      | some sp => some sp.id
      | none => (findInRowExact (rowListOf st row) (col - 1)).map (fun q => q.id)
    else none
  let right : Option ℤ :=
    match findInRowRight (rowListOf st row) col with
    | some rp => some rp.id
    | none => (findSpecialObjectAt allP row (col + 1)).map (fun q => q.id)
  let up : Option ℤ :=
    if row = 1 then
      match findSpecialObjectAt allP 0 col with
      | some sp => some sp.id
      | none => (findInRowExact (rowListOf st 0) col).map (fun q => q.id)
    else p.connections.up
  let down : Option ℤ :=
    if row = 0 then
      match findSpecialObjectAt allP 1 col with
      | some sp => some sp.id
      | none => (findInRowExact (rowListOf st 1) col).map (fun q => q.id)
    else some FLOOR_PLATFORM_ID
  ⟨left, right, up, down⟩

/-- The window/medal connection update loops (both have identical logic),
applied on top of the platform's current connections. -/
def specialOverrideConns (allP : List Platform) (st : ScanState) (p : Platform) :
    Connections :=
  let row := p.grid.row
  let col := p.grid.col
  let right : Option ℤ :=
    match findInRowRight (rowListOf st row) col with
    | some rp => some rp.id
    | none => (findSpecialObjectAt allP row (col + 1)).map (fun q => q.id)
  let left : Option ℤ :=
    if 0 < col then
      match findInRowExact (rowListOf st row) (col - 1) with
      | some lp => some lp.id
      | none => (findSpecialObjectAt allP row (col - 1)).map (fun q => q.id)
    else p.connections.left
  let up : Option ℤ :=
    if row = 1 then
      match findInRowExact (rowListOf st 0) col with
      | some ap => some ap.id
      | none => (findSpecialObjectAt allP 0 col).map (fun q => q.id)
    else p.connections.up
  let down : Option ℤ :=
    if row = 1 then some FLOOR_PLATFORM_ID
    else
      match findInRowExact (rowListOf st 1) col with
      | some bp => some bp.id
      | none => (findSpecialObjectAt allP 1 col).map (fun q => q.id)
  ⟨left, right, up, down⟩

/-- Fill in one platform's connections: shelves get the first pass, medals
get the first pass then the special-object update, windows get only the
special-object update, the floor keeps all-null connections. -/
def connectPlatform (allP : List Platform) (st : ScanState) (p : Platform) : Platform :=
  match p.type with
  | .shelf => { p with connections := pass1Conns allP st p }
  | .medal =>
    let p1 := { p with connections := pass1Conns allP st p }
    { p1 with connections := specialOverrideConns allP st p1 }
  | .window => { p with connections := specialOverrideConns allP st p }
  | .floor => p

/-- `generatePlatforms(trackCount)` from config/platforms.ts, as the list
of platforms in ascending-key order of the returned record (special ids
0.., shelf ids after them, then the floor sentinel). -/
def generatePlatforms (t : ℤ) : List Platform :=
  let st := runScan t
  let allP := specialBuild.platforms ++ st.shelves ++ [floorPlatform]
  allP.map (connectPlatform allP st)

/-! ## Navigation state machine (hooks/useCatMovement.ts) -/

/-- Proximity threshold for prop pickup. -/
def PICKUP_DISTANCE : ℚ := 1

/-- Floor movement speed in units per animation tick. -/
def FLOOR_MOVE_SPEED : ℚ := 3/20

/-- Duration an accepted discrete jump keeps `isMoving` set, in ms. -/
def MOVE_DURATION_MS : ℕ := 600

/-- Total jump-animation duration used by the renderer
(components/canvas/PlaceholderCat.tsx), in seconds. -/
def JUMP_DURATION_S : ℚ := 2/5

/-- Avatar facing. -/
inductive Facing
  | left
  | right
deriving DecidableEq, Repr

/-- The avatar's logical state, from `CatState` plus the hook's extra
pieces of state: the pullup trigger and the set of held arrow keys. -/
structure NavState where
  platform : ℤ
  recordIndex : Option ℕ
  facing : Facing
  isMoving : Bool
  floorX : ℚ
  carryingToy : Bool
  wearingHat : Bool
  wearingLamp : Bool
  startPullup : Bool
  heldLeft : Bool
  heldRight : Bool
deriving DecidableEq, Repr

/-- `getPlatform(id)` against a built platform set. -/
def getPlatform (ps : List Platform) (id : ℤ) : Option Platform :=
  ps.find? (fun p => p.id == id)

/-- `findClosestBottomShelf(x)`: scan the row-1 shelves keeping the one
with the smallest x-distance, the first seen winning ties. -/
def findClosestBottomShelf (ps : List Platform) (x : ℚ) : Option Platform :=
  let bottomShelves := ps.filter
    (fun p => p.type == PlatformType.shelf && p.grid.row == 1)
  match bottomShelves with
  | [] => none
  | h :: _ => some (bottomShelves.foldl
      (fun best p => if |x - p.position.x| < |x - best.position.x| then p else best) h)

/-- `jumpToPlatform(targetPlatformId, targetFloorX)`: rejected while
moving or for a null/unknown target; an accepted jump sets the moving
flag, commits the platform, carries the floor x over when landing on the
floor, and resets the record index (0 on shelves, null elsewhere). -/
def jumpToPlatform (ps : List Platform) (st : NavState)
    (targetId : Option ℤ) (targetFloorX : Option ℚ) : NavState :=
  match targetId with
  | none => st
  | some tid =>
    if st.isMoving then st
    else
      match getPlatform ps tid with
      | none => st
      | some tp =>
        let st1 := { st with isMoving := true, platform := tid }
        let st2 :=
          match tp.type, targetFloorX with
          | .floor, some fx => { st1 with floorX := fx }
          | _, _ => st1
        if tp.type = .shelf then { st2 with recordIndex := some 0 }
        else { st2 with recordIndex := none }

/-- The arrow-key intents consumed by `handleKeyDown`. -/
inductive Key
  | arrowLeft
  | arrowRight
  | arrowUp
  | arrowDown
deriving DecidableEq, Repr

/-- `handleKeyDown` restricted to the arrow keys: floor platforms get the
held-key/continuous controls plus the jump-up-to-nearest-shelf intent;
all other platforms get the four discrete-jump intents, gated by
`isMoving` before facing is updated. -/
def handleKeyDown (ps : List Platform) (st : NavState) (k : Key) : NavState :=
  match getPlatform ps st.platform with
  | none => st
  | some cp =>
    if cp.type = .floor then
      match k with
      | .arrowLeft => { st with heldLeft := true, facing := .left }
      | .arrowRight => { st with heldRight := true, facing := .right }
      | .arrowUp =>
        if st.isMoving then st
        else
          match findClosestBottomShelf ps st.floorX with
          | some closestShelf => jumpToPlatform ps st (some closestShelf.id) none
          | none => st
      | .arrowDown => st
    else if st.isMoving then st
    else
      match k with
      | .arrowLeft =>
        let st1 := { st with facing := Facing.left }
        match cp.connections.left with
        | some l => jumpToPlatform ps st1 (some l) none
        | none => st1
      | .arrowRight =>
        let st1 := { st with facing := Facing.right }
        match cp.connections.right with
        | some r => jumpToPlatform ps st1 (some r) none
        | none => st1
      | .arrowUp =>
        match cp.connections.up with
        | some u => jumpToPlatform ps st (some u) none
        | none => st
      | .arrowDown =>
        match cp.connections.down with
        | some d =>
          match getPlatform ps d with
          | some tp =>
            if tp.type = .floor then jumpToPlatform ps st (some d) (some cp.position.x)
            else jumpToPlatform ps st (some d) none
          | none => jumpToPlatform ps st (some d) none
        | none => st

/-- One frame of the continuous floor-motion loop (`moveOnFloor`): advance
`floorX` by the per-tick speed clamped to the floor bounds, set the moving
flag on any net change, clear it once no directional key is held. -/
def moveOnFloor (st : NavState) : NavState :=
  let step : ℚ × Bool :=
    if st.heldLeft then (max FLOOR_BOUNDS_minX (st.floorX - FLOOR_MOVE_SPEED), true)
    else if st.heldRight then (min FLOOR_BOUNDS_maxX (st.floorX + FLOOR_MOVE_SPEED), true)
    else (st.floorX, false)
  if step.2 = true ∧ step.1 ≠ st.floorX then
    { st with floorX := step.1, isMoving := true }
  else if st.heldLeft = false ∧ st.heldRight = false then
    { st with isMoving := false }
  else st

/-- A finite sequence of floor-motion ticks, each taken with the given
held states of the ArrowLeft and ArrowRight keys. -/
def applyTicks (st : NavState) (ticks : List (Bool × Bool)) : NavState :=
  ticks.foldl (fun s h => moveOnFloor { s with heldLeft := h.1, heldRight := h.2 }) st

/-- `ToyState` from types/index.ts. -/
structure ToyState where
  position : Vec3
  isCarried : Bool
deriving DecidableEq, Repr

/-- `areObjectsNear`: axis-aligned proximity on all three axes. -/
def areObjectsNear (catPos objectPos : Vec3) : Bool :=
  decide (|catPos.x - objectPos.x| < PICKUP_DISTANCE
    ∧ |catPos.y - objectPos.y| < PICKUP_DISTANCE
    ∧ |catPos.z - objectPos.z| < PICKUP_DISTANCE)

/-- `isNearToy()`: false unless a free toy exists and the avatar stands on
the floor platform, otherwise the proximity test at the floor anchor. -/
def isNearToy (ps : List Platform) (toyState : Option ToyState) (st : NavState) : Bool :=
  match toyState with
  | none => false
  | some toy =>
    if toy.isCarried || st.carryingToy then false
    else
      match getPlatform ps st.platform with
      | none => false
      | some cp =>
        if cp.type ≠ PlatformType.floor then false
        else areObjectsNear ⟨st.floorX, FLOOR_Y + 15/100, FLOOR_Z + 3/10⟩ toy.position

/-- `pickupToy()`: only when near the toy and a pickup callback was
supplied does the avatar start carrying it and the callback fire; the
returned boolean records whether `onPickupToy` was invoked. -/
def pickupToy (ps : List Platform) (toyState : Option ToyState)
    (hasOnPickupToy : Bool) (st : NavState) : NavState × Bool :=
  if isNearToy ps toyState st && hasOnPickupToy then
    ({ st with carryingToy := true }, true)
  else (st, false)

/-- Whether a key press is a discrete-jump intent for the current
platform: on the floor only ArrowUp requests a discrete jump (left/right
being continuous motion), elsewhere every arrow is one.  False when the
current platform id is unknown. -/
def jumpIntent (ps : List Platform) (st : NavState) (k : Key) : Bool :=
  match getPlatform ps st.platform with
  | none => false
  | some cp => if cp.type = .floor then k == Key.arrowUp else true

/-- The target connection a discrete-jump intent resolves to: on the
floor the nearest bottom-row shelf, elsewhere the current platform's
connection in the key's direction. -/
def resolvedTarget (ps : List Platform) (st : NavState) (k : Key) : Option ℤ :=
  match getPlatform ps st.platform with
  | none => none
  | some cp =>
    if cp.type = .floor then
      if k == Key.arrowUp then (findClosestBottomShelf ps st.floorX).map (fun p => p.id)
      else none
    else
      match k with
      | .arrowLeft => cp.connections.left
      | .arrowRight => cp.connections.right
      | .arrowUp => cp.connections.up
      | .arrowDown => cp.connections.down

/-- The platform list before the connection pass: specials, then the
scanned shelves, then the floor sentinel (ascending-key order of the
`platforms` record). -/
def prePlatforms (t : ℤ) : List Platform :=
  specialBuild.platforms ++ (runScan t).shelves ++ [floorPlatform]

/-- The individual special platforms, in creation order. -/
def window0 : Platform :=
  ⟨0, ⟨0, 2⟩, calculatePosition 0 2, ⟨none, none, none, none⟩, .window, []⟩

/-- The medal special platform. -/
def medal1 : Platform :=
  ⟨1, ⟨1, 4⟩, calculatePosition 1 4, ⟨none, none, none, none⟩, .medal, []⟩

/-- The second window special platform. -/
def window2 : Platform :=
  ⟨2, ⟨0, 5⟩, calculatePosition 0 5, ⟨none, none, none, none⟩, .window, []⟩

/-- The structural invariant maintained by the creation scan: every
created shelf is a single-track shelf with empty connections, the shelf
records are exactly the placed track indices in order, and the
`shelvesByRow` lists hold only specials and created shelves filed under
their own row. -/
def ScanOk (st : ScanState) : Prop :=
  (∀ p ∈ st.shelves, p.type = PlatformType.shelf ∧
    p.connections = ⟨none, none, none, none⟩) ∧
  (st.shelves.map (fun p => p.records) =
    (List.range st.trackIndex).map (fun i => [i])) ∧
  (∀ p ∈ st.row0, p.grid.row = 0 ∧ (p ∈ specialBuild.platforms ∨ p ∈ st.shelves)) ∧
  (∀ p ∈ st.row1, p.grid.row = 1 ∧ (p ∈ specialBuild.platforms ∨ p ∈ st.shelves))

/-- Number of slots of a column left free by the special objects. -/
def unoccCount (c : ℕ) : ℕ :=
  (if ((0 : ℕ), c) ∈ specialBuild.occupied then 0 else 1) +
    (if ((1 : ℕ), c) ∈ specialBuild.occupied then 0 else 1)

/-! ## Basic lemmas about the state machine -/

theorem jumpToPlatform_facing (ps : List Platform) (st : NavState)
    (tid : Option ℤ) (fx : Option ℚ) :
    (jumpToPlatform ps st tid fx).facing = st.facing := by
  unfold jumpToPlatform
  cases tid with
  | none => rfl
  | some j =>
    dsimp only
    by_cases hm : st.isMoving = true
    · rw [if_pos hm]
    · rw [if_neg hm]
      cases hf : getPlatform ps j with
      | none => rfl
      | some tp =>
        dsimp only
        split <;> split <;> rfl

theorem jumpToPlatform_platform (ps : List Platform) (st : NavState)
    (j : ℤ) (fx : Option ℚ) (hm : st.isMoving = false)
    (hf : (getPlatform ps j).isSome = true) :
    (jumpToPlatform ps st (some j) fx).platform = j := by
  unfold jumpToPlatform
  dsimp only
  rw [if_neg (by rw [hm]; exact Bool.false_ne_true)]
  cases hg : getPlatform ps j with
  | none => rw [hg] at hf; simp at hf
  | some tp =>
    dsimp only
    split <;> split <;> rfl

/-! ## C8: the move-duration constants -/

/-- C8: the spec asserts the state machine's `MOVE_DURATION_MS` and the
renderer's `JUMP_DURATION_S` are one shared constant (and each constant's
code comment claims to match the other), but 600 ms is not 0.4 s. -/
theorem move_duration_constants_disagree :
    (MOVE_DURATION_MS : ℚ) = 600 ∧ JUMP_DURATION_S * 1000 = 400 ∧
      (MOVE_DURATION_MS : ℚ) ≠ JUMP_DURATION_S * 1000 := by
  refine ⟨by norm_num [MOVE_DURATION_MS], by norm_num [JUMP_DURATION_S], ?_⟩
  norm_num [MOVE_DURATION_MS, JUMP_DURATION_S]

/-! ## C3: floor bounds invariant -/

theorem moveOnFloor_bounds (st : NavState)
    (h1 : FLOOR_BOUNDS_minX ≤ st.floorX) (h2 : st.floorX ≤ FLOOR_BOUNDS_maxX) :
    FLOOR_BOUNDS_minX ≤ (moveOnFloor st).floorX ∧
      (moveOnFloor st).floorX ≤ FLOOR_BOUNDS_maxX := by
  have hb : FLOOR_BOUNDS_minX ≤ FLOOR_BOUNDS_maxX := by
    norm_num [FLOOR_BOUNDS_minX, FLOOR_BOUNDS_maxX]
  have hsp : (0:ℚ) < FLOOR_MOVE_SPEED := by norm_num [FLOOR_MOVE_SPEED]
  unfold moveOnFloor
  cases hL : st.heldLeft with
  | true =>
    by_cases hNe : max FLOOR_BOUNDS_minX (st.floorX - FLOOR_MOVE_SPEED) = st.floorX
    · rw [if_neg (fun hc => hc.2 hNe), if_neg (fun hc => Bool.noConfusion hc.1)]
      exact ⟨h1, h2⟩
    · rw [if_pos ⟨rfl, hNe⟩]
      exact ⟨le_max_left _ _, max_le hb (by linarith)⟩
  | false =>
    cases hR : st.heldRight with
    | true =>
      by_cases hNe : min FLOOR_BOUNDS_maxX (st.floorX + FLOOR_MOVE_SPEED) = st.floorX
      · rw [if_neg (fun hc => hc.2 hNe), if_neg (fun hc => Bool.noConfusion hc.2)]
        exact ⟨h1, h2⟩
      · rw [if_pos ⟨rfl, hNe⟩]
        exact ⟨le_min hb (by linarith), min_le_left _ _⟩
    | false =>
      rw [if_neg (fun hc => Bool.noConfusion hc.1), if_pos ⟨rfl, rfl⟩]
      exact ⟨h1, h2⟩

theorem applyTicks_bounds (ticks : List (Bool × Bool)) :
    ∀ st : NavState, FLOOR_BOUNDS_minX ≤ st.floorX → st.floorX ≤ FLOOR_BOUNDS_maxX →
      FLOOR_BOUNDS_minX ≤ (applyTicks st ticks).floorX ∧
        (applyTicks st ticks).floorX ≤ FLOOR_BOUNDS_maxX := by
  induction ticks with
  | nil => intro st h1 h2; exact ⟨h1, h2⟩
  | cons h t ih =>
    intro st h1 h2
    have step := moveOnFloor_bounds { st with heldLeft := h.1, heldRight := h.2 } h1 h2
    exact ih _ step.1 step.2

/-- C3: starting anywhere inside the floor bounds, every finite sequence
of held-key floor-motion ticks keeps `floorX` inside
`[FLOOR_BOUNDS.minX, FLOOR_BOUNDS.maxX]`; moreover a move-left tick taken
exactly at `minX` leaves `floorX` at `minX` (clamped, not wrapped). -/
theorem floor_bounds_invariant (st : NavState)
    (h : FLOOR_BOUNDS_minX ≤ st.floorX ∧ st.floorX ≤ FLOOR_BOUNDS_maxX) :
    (∀ ticks : List (Bool × Bool),
      FLOOR_BOUNDS_minX ≤ (applyTicks st ticks).floorX ∧
        (applyTicks st ticks).floorX ≤ FLOOR_BOUNDS_maxX) ∧
    (st.floorX = FLOOR_BOUNDS_minX →
      (applyTicks st [(true, false)]).floorX = FLOOR_BOUNDS_minX) := by
  constructor
  · intro ticks
    exact applyTicks_bounds ticks st h.1 h.2
  · intro hx
    show (moveOnFloor { st with heldLeft := true, heldRight := false }).floorX
      = FLOOR_BOUNDS_minX
    have hclamp : max FLOOR_BOUNDS_minX (st.floorX - FLOOR_MOVE_SPEED) = st.floorX := by
      rw [hx]
      exact max_eq_left (by norm_num [FLOOR_BOUNDS_minX, FLOOR_MOVE_SPEED])
    unfold moveOnFloor
    rw [if_neg (fun hc => hc.2 hclamp), if_neg (fun hc => Bool.noConfusion hc.1)]
    exact hx

/-- C3 witness: a concrete start inside the bounds, with the conclusion
instantiated by the theorem itself. -/
theorem floor_bounds_invariant_witness :
    (FLOOR_BOUNDS_minX ≤ (0 : ℚ) ∧ (0 : ℚ) ≤ FLOOR_BOUNDS_maxX) ∧
      ((∀ ticks : List (Bool × Bool),
        FLOOR_BOUNDS_minX ≤ (applyTicks ⟨-1, none, .right, false, 0, false, false,
          false, false, false, false⟩ ticks).floorX ∧
          (applyTicks ⟨-1, none, .right, false, 0, false, false,
            false, false, false, false⟩ ticks).floorX ≤ FLOOR_BOUNDS_maxX) ∧
      (NavState.floorX ⟨-1, none, .right, false, 0, false, false,
          false, false, false, false⟩ = FLOOR_BOUNDS_minX →
        (applyTicks ⟨-1, none, .right, false, 0, false, false,
          false, false, false, false⟩ [(true, false)]).floorX = FLOOR_BOUNDS_minX)) :=
  ⟨⟨by norm_num [FLOOR_BOUNDS_minX], by norm_num [FLOOR_BOUNDS_maxX]⟩,
    floor_bounds_invariant _
      ⟨by norm_num [FLOOR_BOUNDS_minX], by norm_num [FLOOR_BOUNDS_maxX]⟩⟩

/-! ## C10: toy pickup gating off the floor -/

/-- C10: whenever the avatar's current platform is not the floor
sentinel, `isNearToy` is false and a pickup-toy action is a no-op (no
state change, callback not invoked), no matter where the toy lies. -/
theorem toy_pickup_gating (ps : List Platform) (toyState : Option ToyState)
    (hasCb : Bool) (st : NavState) (cp : Platform)
    (hfind : getPlatform ps st.platform = some cp)
    (hnf : cp.type ≠ PlatformType.floor) :
    isNearToy ps toyState st = false ∧
      pickupToy ps toyState hasCb st = (st, false) := by
  have hn : isNearToy ps toyState st = false := by
    unfold isNearToy
    cases toyState with
    | none => rfl
    | some toy =>
      dsimp only
      split
      · rfl
      · rw [hfind]
        dsimp only
        rw [if_pos hnf]
  refine ⟨hn, ?_⟩
  unfold pickupToy
  rw [hn]
  rfl

/-- C10 witness: on shelf platform 3 of the 5-track build, with the toy
placed exactly at the floor pickup anchor, the toy is still not near and
pickup does nothing. -/
theorem toy_pickup_gating_witness :
    (getPlatform (generatePlatforms 5) 3 =
        some ⟨3, ⟨0, 0⟩, ⟨-4, 21/10, 1/10⟩, ⟨none, some 5, none, some 4⟩,
          PlatformType.shelf, [0]⟩ ∧
      PlatformType.shelf ≠ PlatformType.floor) ∧
    (isNearToy (generatePlatforms 5) (some ⟨⟨0, -57/20, 23/10⟩, false⟩)
        ⟨3, some 0, .right, false, 0, false, false, false, false, false, false⟩ = false ∧
      pickupToy (generatePlatforms 5) (some ⟨⟨0, -57/20, 23/10⟩, false⟩) true
        ⟨3, some 0, .right, false, 0, false, false, false, false, false, false⟩ =
        (⟨3, some 0, .right, false, 0, false, false, false, false, false, false⟩, false)) :=
  ⟨⟨by with_unfolding_all decide, by with_unfolding_all decide⟩,
    toy_pickup_gating (generatePlatforms 5) (some ⟨⟨0, -57/20, 23/10⟩, false⟩) true
      ⟨3, some 0, .right, false, 0, false, false, false, false, false, false⟩
      ⟨3, ⟨0, 0⟩, ⟨-4, 21/10, 1/10⟩, ⟨none, some 5, none, some 4⟩,
        PlatformType.shelf, [0]⟩
      (by with_unfolding_all decide) (by with_unfolding_all decide)⟩

/-! ## C2: jump gating -/

/-- C2 (amended): a discrete-jump intent taken while `isMoving` is true
leaves the whole machine state unchanged, and one whose resolved target
connection is null changes at most `facing` (in particular `platform` and
`recordIndex` are untouched); no error is surfaced in either case. -/
theorem jump_gating (ps : List Platform) (st : NavState) (k : Key)
    (hintent : jumpIntent ps st k = true) :
    (st.isMoving = true → handleKeyDown ps st k = st) ∧
    (resolvedTarget ps st k = none →
      ∃ f, handleKeyDown ps st k = { st with facing := f }) := by
  cases hg : getPlatform ps st.platform with
  | none =>
    unfold jumpIntent at hintent
    rw [hg] at hintent
    exact absurd hintent Bool.false_ne_true
  | some cp =>
    unfold jumpIntent at hintent
    rw [hg] at hintent
    dsimp only at hintent
    unfold handleKeyDown
    rw [hg]
    dsimp only
    by_cases hft : cp.type = .floor
    · rw [if_pos hft] at hintent ⊢
      cases k with
      | arrowUp =>
        constructor
        · intro hm
          rw [if_pos hm]
        · intro hres
          unfold resolvedTarget at hres
          rw [hg] at hres
          dsimp only at hres
          rw [if_pos hft] at hres
          by_cases hm : st.isMoving = true
          · rw [if_pos hm]
            exact ⟨st.facing, rfl⟩
          · rw [if_neg hm]
            have hres2 : findClosestBottomShelf ps st.floorX = none :=
              Option.map_eq_none.mp hres
            rw [hres2]
            exact ⟨st.facing, rfl⟩
      | arrowLeft => exact absurd hintent (by with_unfolding_all decide)
      | arrowRight => exact absurd hintent (by with_unfolding_all decide)
      | arrowDown => exact absurd hintent (by with_unfolding_all decide)
    · rw [if_neg hft]
      constructor
      · intro hm
        rw [if_pos hm]
      · intro hres
        unfold resolvedTarget at hres
        rw [hg] at hres
        dsimp only at hres
        rw [if_neg hft] at hres
        by_cases hm : st.isMoving = true
        · rw [if_pos hm]
          exact ⟨st.facing, rfl⟩
        · rw [if_neg hm]
          cases k with
          | arrowLeft =>
            dsimp only at hres ⊢
            rw [hres]
            exact ⟨Facing.left, rfl⟩
          | arrowRight =>
            dsimp only at hres ⊢
            rw [hres]
            exact ⟨Facing.right, rfl⟩
          | arrowUp =>
            dsimp only at hres ⊢
            rw [hres]
            exact ⟨st.facing, rfl⟩
          | arrowDown =>
            dsimp only at hres ⊢
            rw [hres]
            exact ⟨st.facing, rfl⟩

/-- C2 counterexample: on shelf 3 of the 5-track build (whose left
connection is null), a rejected move-left intent still flips `facing`, so
the state as a whole is not unchanged — only `platform`/`recordIndex`
are. -/
theorem jump_gating_counterexample :
    let ps := generatePlatforms 5
    let st : NavState := ⟨3, some 0, .right, false, 0, false, false, false, false,
      false, false⟩
    resolvedTarget ps st .arrowLeft = none ∧ st.isMoving = false ∧
      handleKeyDown ps st .arrowLeft ≠ st ∧
      (handleKeyDown ps st .arrowLeft).facing = .left ∧
      (handleKeyDown ps st .arrowLeft).platform = st.platform ∧
      (handleKeyDown ps st .arrowLeft).recordIndex = st.recordIndex := by
  with_unfolding_all decide

/-- C2 witness: a moving avatar on shelf 3 of the 5-track build ignores a
move-left intent entirely. -/
theorem jump_gating_witness :
    (jumpIntent (generatePlatforms 5)
        ⟨3, some 0, .right, true, 0, false, false, false, false, false, false⟩
        .arrowLeft = true) ∧
    (NavState.isMoving ⟨3, some 0, .right, true, 0, false, false, false, false,
        false, false⟩ = true) ∧
    handleKeyDown (generatePlatforms 5)
        ⟨3, some 0, .right, true, 0, false, false, false, false, false, false⟩
        .arrowLeft =
      ⟨3, some 0, .right, true, 0, false, false, false, false, false, false⟩ :=
  ⟨by with_unfolding_all decide, rfl,
    (jump_gating (generatePlatforms 5)
      ⟨3, some 0, .right, true, 0, false, false, false, false, false, false⟩
      .arrowLeft (by with_unfolding_all decide)).1 rfl⟩

/-! ## C5: window directional dispatch -/

/-- C5 (amended): directional intents on a window are dispatched exactly
like on any other non-floor platform — each direction resolves through
its own connection (left through `connections.left`, and so on), not
uniformly through `connections.right`. -/
theorem window_direction_dispatch (ps : List Platform) (st : NavState) (cp : Platform)
    (hfind : getPlatform ps st.platform = some cp) (hw : cp.type = .window)
    (hm : st.isMoving = false) :
    ((∀ j, cp.connections.left = some j → (getPlatform ps j).isSome = true →
        (handleKeyDown ps st .arrowLeft).platform = j) ∧
      (cp.connections.left = none →
        (handleKeyDown ps st .arrowLeft).platform = st.platform)) ∧
    ((∀ j, cp.connections.right = some j → (getPlatform ps j).isSome = true →
        (handleKeyDown ps st .arrowRight).platform = j) ∧
      (cp.connections.right = none →
        (handleKeyDown ps st .arrowRight).platform = st.platform)) ∧
    ((∀ j, cp.connections.up = some j → (getPlatform ps j).isSome = true →
        (handleKeyDown ps st .arrowUp).platform = j) ∧
      (cp.connections.up = none →
        (handleKeyDown ps st .arrowUp).platform = st.platform)) ∧
    ((∀ j, cp.connections.down = some j → (getPlatform ps j).isSome = true →
        (handleKeyDown ps st .arrowDown).platform = j) ∧
      (cp.connections.down = none →
        (handleKeyDown ps st .arrowDown).platform = st.platform)) := by
  have hnf : ¬ cp.type = .floor := by rw [hw]; exact fun hc => PlatformType.noConfusion hc
  have hmov : ¬ st.isMoving = true := by rw [hm]; exact Bool.false_ne_true
  unfold handleKeyDown
  rw [hfind]
  dsimp only
  refine ⟨⟨?_, ?_⟩, ⟨?_, ?_⟩, ⟨?_, ?_⟩, ⟨?_, ?_⟩⟩
  · intro j hconn hj
    rw [if_neg hnf, if_neg hmov, hconn]
    exact jumpToPlatform_platform ps _ j none hm hj
  · intro hconn
    rw [if_neg hnf, if_neg hmov, hconn]
  · intro j hconn hj
    rw [if_neg hnf, if_neg hmov, hconn]
    exact jumpToPlatform_platform ps _ j none hm hj
  · intro hconn
    rw [if_neg hnf, if_neg hmov, hconn]
  · intro j hconn hj
    rw [if_neg hnf, if_neg hmov, hconn]
    exact jumpToPlatform_platform ps st j none hm hj
  · intro hconn
    rw [if_neg hnf, if_neg hmov, hconn]
  · intro j hconn hj
    rw [if_neg hnf, if_neg hmov, hconn]
    dsimp only
    cases hgd : getPlatform ps j with
    | none => rw [hgd] at hj; simp at hj
    | some tp =>
      dsimp only
      split
      · exact jumpToPlatform_platform ps st j (some cp.position.x) hm hj
      · exact jumpToPlatform_platform ps st j none hm hj
  · intro hconn
    rw [if_neg hnf, if_neg hmov, hconn]

/-- C5 counterexample: on the 5-track build's window (id 0) whose right
connection is null and left connection is shelf 5, a move-left intent
moves the avatar to 5 via `connections.left` — not via
`connections.right` as the claim demands. -/
theorem window_direction_counterexample :
    let ps := generatePlatforms 5
    let st : NavState := ⟨0, none, .right, false, 0, false, false, false, false,
      false, false⟩
    (getPlatform ps 0).map (fun p => p.type) = some PlatformType.window ∧
      (getPlatform ps 0).map (fun p => p.connections.right) = some none ∧
      (getPlatform ps 0).map (fun p => p.connections.left) = some (some 5) ∧
      (handleKeyDown ps st .arrowLeft).platform = 5 ∧ st.platform = 0 := by
  with_unfolding_all decide

/-- C5 witness: the amended dispatch rule instantiated on the 5-track
build's window 0 and a concrete resting state. -/
theorem window_direction_dispatch_witness :
    (getPlatform (generatePlatforms 5) 0 =
        some ⟨0, ⟨0, 2⟩, ⟨1, 21/10, 1/10⟩, ⟨some 5, none, none, some 7⟩,
          PlatformType.window, []⟩ ∧
      PlatformType.window = PlatformType.window ∧
      NavState.isMoving ⟨0, none, .right, false, 0, false, false, false, false,
        false, false⟩ = false) ∧
    (handleKeyDown (generatePlatforms 5)
      ⟨0, none, .right, false, 0, false, false, false, false, false, false⟩
      .arrowLeft).platform = 5 :=
  ⟨⟨by with_unfolding_all decide, rfl, rfl⟩,
    (window_direction_dispatch (generatePlatforms 5)
      ⟨0, none, .right, false, 0, false, false, false, false, false, false⟩
      ⟨0, ⟨0, 2⟩, ⟨1, 21/10, 1/10⟩, ⟨some 5, none, none, some 7⟩,
        PlatformType.window, []⟩
      (by with_unfolding_all decide) rfl rfl).1.1 5 rfl (by with_unfolding_all decide)⟩

/-! ## C9: facing updates on horizontal intents -/

/-- C9 (amended): facing updates on every processed left/right intent —
always on the floor, and on non-floor platforms whenever `isMoving` is
false — even when the attempted move fails (null connection); while
`isMoving` is true on a non-floor platform the intent is discarded before
facing is touched. -/
theorem facing_updates (ps : List Platform) (st : NavState) (cp : Platform)
    (hfind : getPlatform ps st.platform = some cp) :
    (cp.type = .floor →
      (handleKeyDown ps st .arrowLeft).facing = .left ∧
      (handleKeyDown ps st .arrowRight).facing = .right) ∧
    (cp.type ≠ .floor → st.isMoving = false →
      (handleKeyDown ps st .arrowLeft).facing = .left ∧
      (handleKeyDown ps st .arrowRight).facing = .right) := by
  unfold handleKeyDown
  rw [hfind]
  dsimp only
  constructor
  · intro hf
    constructor
    · rw [if_pos hf]
    · rw [if_pos hf]
  · intro hf hm
    have hmov : ¬ st.isMoving = true := by rw [hm]; exact Bool.false_ne_true
    constructor
    · rw [if_neg hf, if_neg hmov]
      cases hconn : cp.connections.left with
      | none => rfl
      | some l =>
        dsimp only
        rw [jumpToPlatform_facing]
    · rw [if_neg hf, if_neg hmov]
      cases hconn : cp.connections.right with
      | none => rfl
      | some r =>
        dsimp only
        rw [jumpToPlatform_facing]

/-- C9 counterexample: with `isMoving = true` on shelf 3, a move-left
intent does not update facing (the guard returns before `setFacing`), so
"facing always updates including while moving" fails. -/
theorem facing_updates_counterexample :
    let ps := generatePlatforms 5
    let st : NavState := ⟨3, some 0, .right, true, 0, false, false, false, false,
      false, false⟩
    (getPlatform ps 3).map (fun p => p.type) = some PlatformType.shelf ∧
      st.isMoving = true ∧
      (handleKeyDown ps st .arrowLeft).facing = .right := by
  with_unfolding_all decide

/-- C9 witness: the amended facing rule instantiated on shelf 3 (resting)
of the 5-track build. -/
theorem facing_updates_witness :
    (getPlatform (generatePlatforms 5) 3 =
      some ⟨3, ⟨0, 0⟩, ⟨-4, 21/10, 1/10⟩, ⟨none, some 5, none, some 4⟩,
        PlatformType.shelf, [0]⟩) ∧
    (PlatformType.shelf ≠ PlatformType.floor → false = false →
      (handleKeyDown (generatePlatforms 5)
        ⟨3, some 0, .right, false, 0, false, false, false, false, false, false⟩
        .arrowLeft).facing = .left ∧
      (handleKeyDown (generatePlatforms 5)
        ⟨3, some 0, .right, false, 0, false, false, false, false, false, false⟩
        .arrowRight).facing = .right) :=
  ⟨by with_unfolding_all decide,
    fun _ _ => (facing_updates (generatePlatforms 5)
      ⟨3, some 0, .right, false, 0, false, false, false, false, false, false⟩
      ⟨3, ⟨0, 0⟩, ⟨-4, 21/10, 1/10⟩, ⟨none, some 5, none, some 4⟩,
        PlatformType.shelf, [0]⟩
      (by with_unfolding_all decide)).2 (by with_unfolding_all decide) rfl⟩

/-! ## C6: ids across rebuilds -/

theorem generatePlatforms_floor_mem (t : ℤ) :
    ∃ p ∈ generatePlatforms t, p.id = FLOOR_PLATFORM_ID ∧ p.type = .floor := by
  refine ⟨connectPlatform
      (specialBuild.platforms ++ (runScan t).shelves ++ [floorPlatform])
      (runScan t) floorPlatform, ?_, rfl, rfl⟩
  unfold generatePlatforms
  exact List.mem_map_of_mem _ (by simp)

/-- C6 counterexample: the 1-track and 2-track builds share ids — both
contain special id 0 and the floor sentinel −1 — so consecutive rebuilds
are not id-disjoint. -/
theorem ids_disjoint_counterexample :
    (1 : ℤ) ≠ 2 ∧
      (0 : ℤ) ∈ (generatePlatforms 1).map (fun p => p.id) ∧
      (0 : ℤ) ∈ (generatePlatforms 2).map (fun p => p.id) ∧
      FLOOR_PLATFORM_ID ∈ (generatePlatforms 1).map (fun p => p.id) ∧
      FLOOR_PLATFORM_ID ∈ (generatePlatforms 2).map (fun p => p.id) := by
  with_unfolding_all decide

/-- C6 (amended): platform ids are reassigned from scratch on every
rebuild, so the id sets of any two builds always intersect (the floor
sentinel id is in every build); consumers must re-fetch platforms by id
after a track-count change instead of assuming fresh ids. -/
theorem ids_reused_across_rebuilds (a b : ℤ) :
    ∃ j : ℤ, j ∈ (generatePlatforms a).map (fun p => p.id) ∧
      j ∈ (generatePlatforms b).map (fun p => p.id) := by
  obtain ⟨p, hp, hpid, -⟩ := generatePlatforms_floor_mem a
  obtain ⟨q, hq, hqid, -⟩ := generatePlatforms_floor_mem b
  exact ⟨FLOOR_PLATFORM_ID, List.mem_map.mpr ⟨p, hp, hpid⟩,
    List.mem_map.mpr ⟨q, hq, hqid⟩⟩

/-! ## C7: negative track counts -/

theorem columnsNeeded_eq (t : ℤ) : columnsNeeded t = (t + 4) / 2 := by
  unfold columnsNeeded
  rw [show ((SPECIAL_OBJECT_POSITIONS.length : ℕ) : ℤ) = 3 from rfl,
    show t + 3 + 1 = t + 4 from by ring]
  exact Int.fdiv_eq_ediv _ (by norm_num)

theorem processSlot_break (t : ℤ) (ht : t < 0) (c : ℕ)
    (h0 : ((0 : ℕ), c) ∉ specialBuild.occupied) :
    processSlot t specialBuild.platforms specialBuild.occupied initScan 0 c
      = (initScan, true) := by
  unfold processSlot
  rw [if_neg h0, if_pos (show t ≤ ((initScan.trackIndex : ℕ) : ℤ) from by
    show t ≤ ((0 : ℕ) : ℤ)
    omega)]

theorem processCol_break (t : ℤ) (ht : t < 0) (c : ℕ) (hc : c = 0 ∨ c = 1) :
    processCol t specialBuild.platforms specialBuild.occupied initScan c
      = initScan := by
  have h0 : ((0 : ℕ), c) ∉ specialBuild.occupied := by
    rcases hc with rfl | rfl <;> decide
  unfold processCol
  rw [processSlot_break t ht c h0]
  rfl

theorem colList_small (t : ℤ) (ht : t < 0) :
    colList t = [] ∨ colList t = [0] ∨ colList t = [0, 1] := by
  have hcn : columnsNeeded t ≤ 1 := by rw [columnsNeeded_eq]; omega
  unfold colList
  by_cases hneg : columnsNeeded t < 0
  · left
    rw [if_pos hneg]
  · right
    rw [if_neg hneg]
    have htn : (columnsNeeded t).toNat ≤ 1 := by omega
    rcases Nat.le_one_iff_eq_zero_or_eq_one.mp htn with h | h <;> rw [h]
    · left; rfl
    · right; rfl

theorem runScan_neg (t : ℤ) (ht : t < 0) : runScan t = initScan := by
  unfold runScan
  rcases colList_small t ht with h | h | h <;> rw [h]
  · rfl
  · show processCol t specialBuild.platforms specialBuild.occupied initScan 0 = initScan
    exact processCol_break t ht 0 (Or.inl rfl)
  · show processCol t specialBuild.platforms specialBuild.occupied
      (processCol t specialBuild.platforms specialBuild.occupied initScan 0) 1 = initScan
    rw [processCol_break t ht 0 (Or.inl rfl)]
    exact processCol_break t ht 1 (Or.inr rfl)

/-- C7 counterexample: `generatePlatforms (-1)` does not reject the
negative track count — it returns a normally built platform set holding
the three configured special objects and the floor sentinel (and no
shelves), exactly like the non-shelf part of any valid build. -/
theorem negative_trackCount_counterexample :
    (generatePlatforms (-1)).map (fun p => p.id) = [0, 1, 2, -1] ∧
      (generatePlatforms (-1)).countP (fun p => p.type == PlatformType.floor) = 1 ∧
      (generatePlatforms (-1)).countP (fun p => p.type == PlatformType.shelf) = 0 := by
  with_unfolding_all decide

/-- C7 (amended): `generatePlatforms` performs no validation on negative
track counts: every build with `trackCount < 0` returns the same platform
set as `generatePlatforms (-1)` — the three configured special objects
plus the floor sentinel, with no shelves and no error. -/
theorem negative_trackCount_behavior (t : ℤ) (ht : t < 0) :
    generatePlatforms t = generatePlatforms (-1) ∧
      (generatePlatforms t).map (fun p => p.id) = [0, 1, 2, -1] ∧
      (generatePlatforms t).countP (fun p => p.type == PlatformType.shelf) = 0 := by
  have heq : generatePlatforms t = generatePlatforms (-1) := by
    unfold generatePlatforms
    rw [runScan_neg t ht, runScan_neg (-1) (by norm_num)]
  refine ⟨heq, ?_, ?_⟩ <;> rw [heq]
  · with_unfolding_all decide
  · with_unfolding_all decide

/-- C7 witness: the amended behaviour instantiated at `trackCount = -3`. -/
theorem negative_trackCount_behavior_witness :
    ((-3 : ℤ) < 0) ∧
      (generatePlatforms (-3) = generatePlatforms (-1) ∧
        (generatePlatforms (-3)).map (fun p => p.id) = [0, 1, 2, -1] ∧
        (generatePlatforms (-3)).countP (fun p => p.type == PlatformType.shelf) = 0) :=
  ⟨by norm_num, negative_trackCount_behavior (-3) (by norm_num)⟩

/-! ## The creation-scan invariant -/

theorem specialBuild_platforms :
    specialBuild.platforms = [window0, medal1, window2] := rfl

theorem specialBuild_occupied :
    specialBuild.occupied = [(0, 2), (1, 4), (0, 5)] := rfl

theorem pushRow_shelves (st : ScanState) (r : ℕ) (p : Platform) :
    (pushRow st r p).shelves = st.shelves := by
  unfold pushRow
  split <;> rfl

theorem pushRow_trackIndex (st : ScanState) (r : ℕ) (p : Platform) :
    (pushRow st r p).trackIndex = st.trackIndex := by
  unfold pushRow
  split <;> rfl

theorem scanOk_pushRow (st : ScanState) (r : ℕ) (p : Platform)
    (hr01 : r = 0 ∨ r = 1) (h : ScanOk st) (hrow : p.grid.row = r)
    (hmem : p ∈ specialBuild.platforms ∨ p ∈ st.shelves) :
    ScanOk (pushRow st r p) := by
  unfold pushRow
  split
  · next hr0 =>
    refine ⟨h.1, h.2.1, ?_, h.2.2.2⟩
    intro q hq
    rcases List.mem_append.mp hq with hq | hq
    · exact h.2.2.1 q hq
    · rw [List.mem_singleton.mp hq]
      rw [hr0] at hrow
      exact ⟨hrow, hmem⟩
  · next hr0 =>
    have hr1 : r = 1 := hr01.resolve_left hr0
    refine ⟨h.1, h.2.1, h.2.2.1, ?_⟩
    intro q hq
    rcases List.mem_append.mp hq with hq | hq
    · exact h.2.2.2 q hq
    · rw [List.mem_singleton.mp hq]
      rw [hr1] at hrow
      exact ⟨hrow, hmem⟩

theorem processSlot_scanOk (t : ℤ) (st : ScanState) (r c : ℕ)
    (hr01 : r = 0 ∨ r = 1) (h : ScanOk st) :
    ScanOk (processSlot t specialBuild.platforms specialBuild.occupied st r c).1 := by
  unfold processSlot
  split
  · -- occupied slot: maybe re-register the special platform in its row
    split
    · next cfg heq =>
      split
      · split
        · next sp hfind =>
          have hmem := List.mem_of_find?_eq_some hfind
          have hpred := List.find?_some hfind
          simp only [Bool.and_eq_true, beq_iff_eq] at hpred
          exact scanOk_pushRow st r sp hr01 h hpred.1 (List.mem_append.mp hmem)
        · exact h
      · exact h
    · exact h
  · -- unoccupied slot
    split
    · exact h
    · -- create a new shelf and push it into its row
      refine scanOk_pushRow _ r _ hr01 ?_ rfl
        (Or.inr (List.mem_append.mpr (Or.inr (List.mem_singleton.mpr rfl))))
      refine ⟨?_, ?_, ?_, ?_⟩
      · intro p hp
        rcases List.mem_append.mp hp with hp | hp
        · exact h.1 p hp
        · rw [List.mem_singleton.mp hp]
          exact ⟨rfl, rfl⟩
      · dsimp only
        rw [List.map_append, h.2.1, List.range_succ, List.map_append]
        rfl
      · intro p hp
        exact ⟨(h.2.2.1 p hp).1, (h.2.2.1 p hp).2.imp id (List.mem_append_left _)⟩
      · intro p hp
        exact ⟨(h.2.2.2 p hp).1, (h.2.2.2 p hp).2.imp id (List.mem_append_left _)⟩

theorem processCol_scanOk (t : ℤ) (st : ScanState) (c : ℕ) (h : ScanOk st) :
    ScanOk (processCol t specialBuild.platforms specialBuild.occupied st c) := by
  unfold processCol
  dsimp only
  split
  · exact processSlot_scanOk t st 0 c (Or.inl rfl) h
  · exact processSlot_scanOk t _ 1 c (Or.inr rfl)
      (processSlot_scanOk t st 0 c (Or.inl rfl) h)

theorem foldl_scanOk (t : ℤ) (l : List ℕ) :
    ∀ st : ScanState, ScanOk st →
      ScanOk (l.foldl (processCol t specialBuild.platforms specialBuild.occupied) st) := by
  induction l with
  | nil => intro st h; exact h
  | cons c l ih =>
    intro st h
    exact ih _ (processCol_scanOk t st c h)

theorem runScan_scanOk (t : ℤ) : ScanOk (runScan t) := by
  unfold runScan
  refine foldl_scanOk t _ initScan ⟨?_, rfl, ?_, ?_⟩ <;> intro p hp <;>
    exact absurd hp (List.not_mem_nil p)

/-! ## Track-placement accounting: the scan places exactly the tracks -/

theorem processSlot_occ (t : ℤ) (st : ScanState) (r c : ℕ)
    (h : (r, c) ∈ specialBuild.occupied) :
    (processSlot t specialBuild.platforms specialBuild.occupied st r c).1.trackIndex
        = st.trackIndex ∧
      (processSlot t specialBuild.platforms specialBuild.occupied st r c).2 = false := by
  unfold processSlot
  rw [if_pos h]
  split
  · split
    · split
      · next sp hfind => exact ⟨pushRow_trackIndex st r sp, rfl⟩
      · exact ⟨rfl, rfl⟩
    · exact ⟨rfl, rfl⟩
  · exact ⟨rfl, rfl⟩

theorem processSlot_stop (T : ℕ) (st : ScanState) (r c : ℕ)
    (h : (r, c) ∉ specialBuild.occupied) (hti : T ≤ st.trackIndex) :
    processSlot (T : ℤ) specialBuild.platforms specialBuild.occupied st r c
      = (st, true) := by
  unfold processSlot
  rw [if_neg h, if_pos (show (T : ℤ) ≤ (st.trackIndex : ℤ) from by exact_mod_cast hti)]

theorem processSlot_create (T : ℕ) (st : ScanState) (r c : ℕ)
    (h : (r, c) ∉ specialBuild.occupied) (hti : st.trackIndex < T) :
    (processSlot (T : ℤ) specialBuild.platforms specialBuild.occupied st r c).1.trackIndex
        = st.trackIndex + 1 ∧
      (processSlot (T : ℤ) specialBuild.platforms specialBuild.occupied st r c).2
        = false := by
  unfold processSlot
  rw [if_neg h, if_neg (show ¬ (T : ℤ) ≤ (st.trackIndex : ℤ) from by
    exact_mod_cast Nat.not_le.mpr hti)]
  exact ⟨pushRow_trackIndex _ r _, rfl⟩

theorem processCol_trackIndex (T : ℕ) (st : ScanState) (c : ℕ)
    (hle : st.trackIndex ≤ T) :
    (processCol (T : ℤ) specialBuild.platforms specialBuild.occupied st c).trackIndex
      = min T (st.trackIndex + unoccCount c) := by
  unfold processCol
  dsimp only
  by_cases h0 : ((0 : ℕ), c) ∈ specialBuild.occupied
  · obtain ⟨hti0, hb0⟩ := processSlot_occ (T : ℤ) st 0 c h0
    rw [hb0, if_neg Bool.false_ne_true]
    by_cases h1 : ((1 : ℕ), c) ∈ specialBuild.occupied
    · obtain ⟨hti1, -⟩ := processSlot_occ (T : ℤ) _ 1 c h1
      rw [hti1, hti0]
      have hu : unoccCount c = 0 := by simp [unoccCount, h0, h1]
      omega
    · have hu : unoccCount c = 1 := by simp [unoccCount, h0, h1]
      rcases Nat.lt_or_ge st.trackIndex T with hlt | hge
      · obtain ⟨hti1, -⟩ := processSlot_create T _ 1 c h1 (by rw [hti0]; exact hlt)
        rw [hti1, hti0]
        omega
      · rw [processSlot_stop T _ 1 c h1 (by rw [hti0]; exact hge)]
        rw [hti0]
        omega
  · rcases Nat.lt_or_ge st.trackIndex T with hlt | hge
    · obtain ⟨hti0, hb0⟩ := processSlot_create T st 0 c h0 hlt
      rw [hb0, if_neg Bool.false_ne_true]
      by_cases h1 : ((1 : ℕ), c) ∈ specialBuild.occupied
      · obtain ⟨hti1, -⟩ := processSlot_occ (T : ℤ) _ 1 c h1
        rw [hti1, hti0]
        have hu : unoccCount c = 1 := by simp [unoccCount, h0, h1]
        omega
      · have hu : unoccCount c = 2 := by simp [unoccCount, h0, h1]
        rcases Nat.lt_or_ge (st.trackIndex + 1) T with hlt1 | hge1
        · obtain ⟨hti1, -⟩ := processSlot_create T _ 1 c h1 (by rw [hti0]; exact hlt1)
          rw [hti1, hti0]
          omega
        · rw [processSlot_stop T _ 1 c h1 (by rw [hti0]; exact hge1)]
          rw [hti0]
          omega
    · rw [processSlot_stop T st 0 c h0 hge, if_pos rfl]
      dsimp only
      omega

theorem scan_foldl_trackIndex (T : ℕ) (l : List ℕ) :
    ∀ st : ScanState, st.trackIndex ≤ T →
      (l.foldl (processCol (T : ℤ) specialBuild.platforms specialBuild.occupied)
          st).trackIndex
        = min T (st.trackIndex + (l.map unoccCount).sum) := by
  induction l with
  | nil =>
    intro st h
    simp only [List.foldl_nil, List.map_nil, List.sum_nil, Nat.add_zero]
    omega
  | cons c l ih =>
    intro st h
    rw [List.foldl_cons]
    have hc := processCol_trackIndex T st c h
    rw [ih _ (by rw [hc]; exact Nat.min_le_left _ _), hc]
    simp only [List.map_cons, List.sum_cons]
    omega

theorem colList_ofNat (T : ℕ) : colList (T : ℤ) = List.range ((T + 4) / 2 + 1) := by
  unfold colList
  rw [columnsNeeded_eq]
  rw [if_neg (by omega)]
  have htn : (((T : ℤ) + 4) / 2).toNat = (T + 4) / 2 := by omega
  rw [htn]

theorem unoccCount_eq (c : ℕ) :
    unoccCount c = if c = 2 ∨ c = 4 ∨ c = 5 then 1 else 2 := by
  unfold unoccCount
  simp only [specialBuild_occupied, List.mem_cons, List.mem_singleton, Prod.mk.injEq,
    List.not_mem_nil, or_false, eq_self_iff_true, true_and, false_and, false_or,
    Nat.zero_ne_one, Nat.one_ne_zero]
  split_ifs <;> omega

theorem freeSum_range (n : ℕ) :
    ((List.range n).map unoccCount).sum +
        ((if 2 < n then 1 else 0) + (if 4 < n then 1 else 0) + (if 5 < n then 1 else 0))
      = 2 * n := by
  induction n with
  | zero => rfl
  | succ n ih =>
    rw [List.range_succ, List.map_append, List.sum_append]
    simp only [List.map_cons, List.map_nil, List.sum_cons, List.sum_nil]
    rw [unoccCount_eq]
    split_ifs at ih ⊢ <;> omega

theorem runScan_trackIndex (T : ℕ) : (runScan (T : ℤ)).trackIndex = T := by
  unfold runScan
  rw [colList_ofNat T]
  rw [scan_foldl_trackIndex T _ initScan (Nat.zero_le T)]
  have hsum := freeSum_range ((T + 4) / 2 + 1)
  have hge : T ≤ ((List.range ((T + 4) / 2 + 1)).map unoccCount).sum := by
    split_ifs at hsum <;> omega
  show min T (0 + _) = T
  omega

/-! ## What the row/special lookups can return -/

theorem findInRowExact_spec (l : List Platform) (c : ℕ) (q : Platform)
    (h : findInRowExact l c = some q) : q ∈ l ∧ q.grid.col = c := by
  unfold findInRowExact at h
  refine ⟨List.mem_of_find?_eq_some h, ?_⟩
  have hp := List.find?_some h
  exact beq_iff_eq.mp hp

theorem findSpecialObjectAt_spec (allP : List Platform) (row col : ℕ) (q : Platform)
    (h : findSpecialObjectAt allP row col = some q) :
    q ∈ allP ∧ q.grid.row = row ∧ q.grid.col = col := by
  unfold findSpecialObjectAt at h
  refine ⟨List.mem_of_find?_eq_some h, ?_, ?_⟩
  all_goals
    have hp := List.find?_some h
    simp only [Bool.and_eq_true, beq_iff_eq] at hp
  · exact hp.1.2
  · exact hp.2

theorem foldl_bestRight_some (l : List Platform) :
    ∀ (acc : Option Platform) (q : Platform), l.foldl bestRight acc = some q →
      (acc = some q ∨ q ∈ l) ∧
      (∀ r, acc = some r → q.grid.col ≤ r.grid.col) ∧
      (∀ p ∈ l, q.grid.col ≤ p.grid.col) := by
  induction l with
  | nil =>
    intro acc q h
    refine ⟨Or.inl h, ?_, ?_⟩
    · intro r hr
      rw [hr] at h
      cases h
      exact Nat.le_refl _
    · intro p hp
      exact absurd hp (List.not_mem_nil p)
  | cons p l ih =>
    intro acc q h
    rw [List.foldl_cons] at h
    obtain ⟨hmem, hacc, hall⟩ := ih (bestRight acc p) q h
    have hqp : q.grid.col ≤ p.grid.col := by
      cases acc with
      | none => exact hacc p rfl
      | some r =>
        by_cases hlt : p.grid.col < r.grid.col
        · exact hacc p (by simp [bestRight, if_pos hlt])
        · exact Nat.le_trans (hacc r (by simp [bestRight, if_neg hlt]))
            (Nat.le_of_not_lt hlt)
    refine ⟨?_, ?_, ?_⟩
    · rcases hmem with hbp | hql
      · cases acc with
        | none =>
          right
          have : p = q := by simpa [bestRight] using hbp
          rw [← this]
          exact List.mem_cons_self p l
        | some r =>
          by_cases hlt : p.grid.col < r.grid.col
          · right
            have : p = q := by simpa [bestRight, if_pos hlt] using hbp
            rw [← this]
            exact List.mem_cons_self p l
          · left
            have : r = q := by simpa [bestRight, if_neg hlt] using hbp
            rw [this]
      · exact Or.inr (List.mem_cons_of_mem p hql)
    · intro r hr
      by_cases hlt : p.grid.col < r.grid.col
      · exact Nat.le_trans (hacc p (by rw [hr]; simp [bestRight, if_pos hlt]))
          (Nat.le_of_lt hlt)
      · exact hacc r (by rw [hr]; simp [bestRight, if_neg hlt])
    · intro x hx
      rcases List.mem_cons.mp hx with rfl | hx
      · exact hqp
      · exact hall x hx

theorem foldl_bestRight_none (l : List Platform) :
    ∀ acc, l.foldl bestRight acc = none → acc = none ∧ l = [] := by
  induction l with
  | nil => exact fun acc h => ⟨h, rfl⟩
  | cons p l ih =>
    intro acc h
    rw [List.foldl_cons] at h
    obtain ⟨hacc, -⟩ := ih _ h
    exfalso
    cases acc with
    | none => simp [bestRight] at hacc
    | some r =>
      by_cases hlt : p.grid.col < r.grid.col
      · simp [bestRight, if_pos hlt] at hacc
      · simp [bestRight, if_neg hlt] at hacc

theorem findInRowRight_some (l : List Platform) (c : ℕ) (q : Platform)
    (h : findInRowRight l c = some q) :
    q ∈ l ∧ c < q.grid.col ∧ ∀ p ∈ l, c < p.grid.col → q.grid.col ≤ p.grid.col := by
  unfold findInRowRight at h
  obtain ⟨hmem, -, hall⟩ := foldl_bestRight_some _ _ _ h
  rcases hmem with hmem | hmem
  · cases hmem
  · have hf := List.mem_filter.mp hmem
    refine ⟨hf.1, of_decide_eq_true hf.2, ?_⟩
    intro p hp hcp
    exact hall p (List.mem_filter.mpr ⟨hp, decide_eq_true hcp⟩)

theorem findInRowRight_none (l : List Platform) (c : ℕ)
    (h : findInRowRight l c = none) : ∀ p ∈ l, ¬ c < p.grid.col := by
  unfold findInRowRight at h
  obtain ⟨-, hnil⟩ := foldl_bestRight_none _ _ h
  intro p hp hc
  have hmem : p ∈ l.filter (fun p => decide (c < p.grid.col)) :=
    List.mem_filter.mpr ⟨hp, decide_eq_true hc⟩
  rw [hnil] at hmem
  exact absurd hmem (List.not_mem_nil p)

theorem rowListOf_spec (st : ScanState) (h : ScanOk st) (row : ℕ) (q : Platform)
    (hq : q ∈ rowListOf st row) :
    q.grid.row = row ∧ (q ∈ specialBuild.platforms ∨ q ∈ st.shelves) := by
  unfold rowListOf at hq
  split at hq
  · next hr => rw [hr]; exact h.2.2.1 q hq
  · split at hq
    · next hr => rw [hr]; exact h.2.2.2 q hq
    · exact absurd hq (List.not_mem_nil q)

theorem mem_prePlatforms (t : ℤ) (q : Platform)
    (h : q ∈ specialBuild.platforms ∨ q ∈ (runScan t).shelves) :
    q ∈ prePlatforms t := by
  unfold prePlatforms
  rcases h with h | h
  · exact List.mem_append_left _ (List.mem_append_left _ h)
  · exact List.mem_append_left _ (List.mem_append_right _ h)

theorem floorPlatform_mem_prePlatforms (t : ℤ) : floorPlatform ∈ prePlatforms t := by
  unfold prePlatforms
  exact List.mem_append_right _ (List.mem_singleton.mpr rfl)

theorem connectPlatform_id (a : List Platform) (s : ScanState) (p : Platform) :
    (connectPlatform a s p).id = p.id := by
  unfold connectPlatform
  split <;> rfl

theorem connectPlatform_grid (a : List Platform) (s : ScanState) (p : Platform) :
    (connectPlatform a s p).grid = p.grid := by
  unfold connectPlatform
  split <;> rfl

theorem connectPlatform_type (a : List Platform) (s : ScanState) (p : Platform) :
    (connectPlatform a s p).type = p.type := by
  unfold connectPlatform
  split <;> rfl

theorem connectPlatform_records (a : List Platform) (s : ScanState) (p : Platform) :
    (connectPlatform a s p).records = p.records := by
  unfold connectPlatform
  split <;> rfl

/-! ## Soundness of the computed connections -/

theorem pass1Conns_sound (t : ℤ) (p : Platform)
    (hconns : p.connections = ⟨none, none, none, none⟩) :
    (∀ j, (pass1Conns (prePlatforms t) (runScan t) p).left = some j →
      ∃ q ∈ prePlatforms t, q.id = j ∧ q.grid.row = p.grid.row ∧
        q.grid.col + 1 = p.grid.col) ∧
    (∀ j, (pass1Conns (prePlatforms t) (runScan t) p).right = some j →
      ∃ q ∈ prePlatforms t, q.id = j ∧ q.grid.row = p.grid.row ∧
        p.grid.col < q.grid.col ∧
        ∀ r ∈ rowListOf (runScan t) p.grid.row, p.grid.col < r.grid.col →
          q.grid.col ≤ r.grid.col) ∧
    (∀ j, (pass1Conns (prePlatforms t) (runScan t) p).up = some j →
      ∃ q ∈ prePlatforms t, q.id = j) ∧
    (∀ j, (pass1Conns (prePlatforms t) (runScan t) p).down = some j →
      ∃ q ∈ prePlatforms t, q.id = j) := by
  have hok := runScan_scanOk t
  refine ⟨?_, ?_, ?_, ?_⟩
  · intro j hj
    unfold pass1Conns at hj
    dsimp only at hj
    split at hj
    · next hcol =>
      split at hj
      · next sp hsp =>
        cases hj
        obtain ⟨hm, hrow, hcl⟩ := findSpecialObjectAt_spec _ _ _ _ hsp
        exact ⟨sp, hm, rfl, hrow, by omega⟩
      · obtain ⟨q, hq, rfl⟩ := Option.map_eq_some'.mp hj
        obtain ⟨hm, hcl⟩ := findInRowExact_spec _ _ _ hq
        obtain ⟨hrow, hmem⟩ := rowListOf_spec _ hok _ _ hm
        exact ⟨q, mem_prePlatforms t q hmem, rfl, hrow, by omega⟩
    · cases hj
  · intro j hj
    unfold pass1Conns at hj
    dsimp only at hj
    split at hj
    · next rp hrp =>
      cases hj
      obtain ⟨hm, hcl, hmin⟩ := findInRowRight_some _ _ _ hrp
      obtain ⟨hrow, hmem⟩ := rowListOf_spec _ hok _ _ hm
      exact ⟨rp, mem_prePlatforms t rp hmem, rfl, hrow, hcl, hmin⟩
    · next hnone =>
      obtain ⟨q, hq, rfl⟩ := Option.map_eq_some'.mp hj
      obtain ⟨hm, hrow, hcl⟩ := findSpecialObjectAt_spec _ _ _ _ hq
      refine ⟨q, hm, rfl, hrow, by omega, ?_⟩
      intro r hr hcr
      exact absurd hcr (findInRowRight_none _ _ hnone r hr)
  · intro j hj
    unfold pass1Conns at hj
    dsimp only at hj
    split at hj
    · split at hj
      · next sp hsp =>
        cases hj
        exact ⟨sp, (findSpecialObjectAt_spec _ _ _ _ hsp).1, rfl⟩
      · obtain ⟨q, hq, rfl⟩ := Option.map_eq_some'.mp hj
        obtain ⟨hm, -⟩ := findInRowExact_spec _ _ _ hq
        obtain ⟨-, hmem⟩ := rowListOf_spec _ hok _ _ hm
        exact ⟨q, mem_prePlatforms t q hmem, rfl⟩
    · rw [hconns] at hj
      cases hj
  · intro j hj
    unfold pass1Conns at hj
    dsimp only at hj
    split at hj
    · split at hj
      · next sp hsp =>
        cases hj
        exact ⟨sp, (findSpecialObjectAt_spec _ _ _ _ hsp).1, rfl⟩
      · obtain ⟨q, hq, rfl⟩ := Option.map_eq_some'.mp hj
        obtain ⟨hm, -⟩ := findInRowExact_spec _ _ _ hq
        obtain ⟨-, hmem⟩ := rowListOf_spec _ hok _ _ hm
        exact ⟨q, mem_prePlatforms t q hmem, rfl⟩
    · cases hj
      exact ⟨floorPlatform, floorPlatform_mem_prePlatforms t, rfl⟩

theorem overrideConns_sound (t : ℤ) (p : Platform)
    (hleft0 : ¬ 0 < p.grid.col → p.connections.left = none)
    (hup0 : p.grid.row ≠ 1 → p.connections.up = none) :
    (∀ j, (specialOverrideConns (prePlatforms t) (runScan t) p).left = some j →
      ∃ q ∈ prePlatforms t, q.id = j ∧ q.grid.row = p.grid.row ∧
        q.grid.col + 1 = p.grid.col) ∧
    (∀ j, (specialOverrideConns (prePlatforms t) (runScan t) p).right = some j →
      ∃ q ∈ prePlatforms t, q.id = j ∧ q.grid.row = p.grid.row ∧
        p.grid.col < q.grid.col ∧
        ∀ r ∈ rowListOf (runScan t) p.grid.row, p.grid.col < r.grid.col →
          q.grid.col ≤ r.grid.col) ∧
    (∀ j, (specialOverrideConns (prePlatforms t) (runScan t) p).up = some j →
      ∃ q ∈ prePlatforms t, q.id = j) ∧
    (∀ j, (specialOverrideConns (prePlatforms t) (runScan t) p).down = some j →
      ∃ q ∈ prePlatforms t, q.id = j) := by
  have hok := runScan_scanOk t
  refine ⟨?_, ?_, ?_, ?_⟩
  · intro j hj
    unfold specialOverrideConns at hj
    dsimp only at hj
    split at hj
    · next hcol =>
      split at hj
      · next lp hlp =>
        cases hj
        obtain ⟨hm, hcl⟩ := findInRowExact_spec _ _ _ hlp
        obtain ⟨hrow, hmem⟩ := rowListOf_spec _ hok _ _ hm
        exact ⟨lp, mem_prePlatforms t lp hmem, rfl, hrow, by omega⟩
      · obtain ⟨q, hq, rfl⟩ := Option.map_eq_some'.mp hj
        obtain ⟨hm, hrow, hcl⟩ := findSpecialObjectAt_spec _ _ _ _ hq
        exact ⟨q, hm, rfl, hrow, by omega⟩
    · next hcol =>
      rw [hleft0 hcol] at hj
      cases hj
  · intro j hj
    unfold specialOverrideConns at hj
    dsimp only at hj
    split at hj
    · next rp hrp =>
      cases hj
      obtain ⟨hm, hcl, hmin⟩ := findInRowRight_some _ _ _ hrp
      obtain ⟨hrow, hmem⟩ := rowListOf_spec _ hok _ _ hm
      exact ⟨rp, mem_prePlatforms t rp hmem, rfl, hrow, hcl, hmin⟩
    · next hnone =>
      obtain ⟨q, hq, rfl⟩ := Option.map_eq_some'.mp hj
      obtain ⟨hm, hrow, hcl⟩ := findSpecialObjectAt_spec _ _ _ _ hq
      refine ⟨q, hm, rfl, hrow, by omega, ?_⟩
      intro r hr hcr
      exact absurd hcr (findInRowRight_none _ _ hnone r hr)
  · intro j hj
    unfold specialOverrideConns at hj
    dsimp only at hj
    split at hj
    · split at hj
      · next ap hap =>
        cases hj
        obtain ⟨hm, -⟩ := findInRowExact_spec _ _ _ hap
        obtain ⟨-, hmem⟩ := rowListOf_spec _ hok _ _ hm
        exact ⟨ap, mem_prePlatforms t ap hmem, rfl⟩
      · obtain ⟨q, hq, rfl⟩ := Option.map_eq_some'.mp hj
        exact ⟨q, (findSpecialObjectAt_spec _ _ _ _ hq).1, rfl⟩
    · next hrow =>
      rw [hup0 hrow] at hj
      cases hj
  · intro j hj
    unfold specialOverrideConns at hj
    dsimp only at hj
    split at hj
    · cases hj
      exact ⟨floorPlatform, floorPlatform_mem_prePlatforms t, rfl⟩
    · split at hj
      · next bp hbp =>
        cases hj
        obtain ⟨hm, -⟩ := findInRowExact_spec _ _ _ hbp
        obtain ⟨-, hmem⟩ := rowListOf_spec _ hok _ _ hm
        exact ⟨bp, mem_prePlatforms t bp hmem, rfl⟩
      · obtain ⟨q, hq, rfl⟩ := Option.map_eq_some'.mp hj
        exact ⟨q, (findSpecialObjectAt_spec _ _ _ _ hq).1, rfl⟩

theorem generatePlatforms_eq (t : ℤ) :
    generatePlatforms t
      = (prePlatforms t).map (connectPlatform (prePlatforms t) (runScan t)) := rfl

theorem prePlatforms_conns_none (t : ℤ) (q : Platform) (hq : q ∈ prePlatforms t) :
    q.connections = ⟨none, none, none, none⟩ := by
  unfold prePlatforms at hq
  rcases List.mem_append.mp hq with hq | hq
  · rcases List.mem_append.mp hq with hq | hq
    · rw [specialBuild_platforms] at hq
      rcases List.mem_cons.mp hq with rfl | hq
      · rfl
      · rcases List.mem_cons.mp hq with rfl | hq
        · rfl
        · rw [List.mem_singleton.mp hq]
          rfl
    · exact ((runScan_scanOk t).1 q hq).2
  · rw [List.mem_singleton.mp hq]
    rfl

theorem connect_conns_sound (t : ℤ) (raw : Platform) (hraw : raw ∈ prePlatforms t) :
    (∀ j, (connectPlatform (prePlatforms t) (runScan t) raw).connections.left = some j →
      ∃ q ∈ prePlatforms t, q.id = j ∧ q.grid.row = raw.grid.row ∧
        q.grid.col + 1 = raw.grid.col) ∧
    (∀ j, (connectPlatform (prePlatforms t) (runScan t) raw).connections.right = some j →
      ∃ q ∈ prePlatforms t, q.id = j ∧ q.grid.row = raw.grid.row ∧
        raw.grid.col < q.grid.col ∧
        ∀ r ∈ rowListOf (runScan t) raw.grid.row, raw.grid.col < r.grid.col →
          q.grid.col ≤ r.grid.col) ∧
    (∀ j, (connectPlatform (prePlatforms t) (runScan t) raw).connections.up = some j →
      ∃ q ∈ prePlatforms t, q.id = j) ∧
    (∀ j, (connectPlatform (prePlatforms t) (runScan t) raw).connections.down = some j →
      ∃ q ∈ prePlatforms t, q.id = j) := by
  have hconns := prePlatforms_conns_none t raw hraw
  cases htype : raw.type with
  | floor =>
    have hcp : connectPlatform (prePlatforms t) (runScan t) raw = raw := by
      simp only [connectPlatform, htype]
    refine ⟨?_, ?_, ?_, ?_⟩ <;> intro j hj <;> rw [hcp, hconns] at hj <;> cases hj
  | shelf =>
    have hcp : (connectPlatform (prePlatforms t) (runScan t) raw).connections
        = pass1Conns (prePlatforms t) (runScan t) raw := by
      simp only [connectPlatform, htype]
    rw [hcp]
    exact pass1Conns_sound t raw hconns
  | window =>
    have hcp : (connectPlatform (prePlatforms t) (runScan t) raw).connections
        = specialOverrideConns (prePlatforms t) (runScan t) raw := by
      simp only [connectPlatform, htype]
    rw [hcp]
    exact overrideConns_sound t raw (fun _ => by rw [hconns]) (fun _ => by rw [hconns])
  | medal =>
    have hcp : (connectPlatform (prePlatforms t) (runScan t) raw).connections
        = specialOverrideConns (prePlatforms t) (runScan t)
            { raw with connections := pass1Conns (prePlatforms t) (runScan t) raw } := by
      simp only [connectPlatform, htype]
    rw [hcp]
    refine overrideConns_sound t _ ?_ ?_
    · intro hcol
      show (pass1Conns (prePlatforms t) (runScan t) raw).left = none
      unfold pass1Conns
      dsimp only
      rw [if_neg hcol]
    · intro hrow
      show (pass1Conns (prePlatforms t) (runScan t) raw).up = none
      unfold pass1Conns
      dsimp only
      rw [if_neg hrow, hconns]

theorem target_lift (t : ℤ) (j : ℤ) (q : Platform) (hq : q ∈ prePlatforms t)
    (hid : q.id = j) :
    ∃ q2 ∈ generatePlatforms t, q2.id = j ∧ q2.grid = q.grid := by
  refine ⟨connectPlatform (prePlatforms t) (runScan t) q, ?_, ?_,
    connectPlatform_grid _ _ _⟩
  · rw [generatePlatforms_eq]
    exact List.mem_map_of_mem _ hq
  · rw [connectPlatform_id]
    exact hid

/-! ## C4: left/right adjacency -/

/-- C4 (amended): in every build, a non-null left connection of a
non-floor platform points to an occupied node of the same row in the
immediately adjacent column to the left (the builder looks only one
column over, so left may be null even when farther occupants exist), and
a non-null right connection points to an occupied node strictly to the
right in the same row — the nearest one among those registered in the row
scan; a right connection may be null or skip occupants that the scan
never registered. -/
theorem adjacency_soundness (T : ℕ) (p : Platform)
    (hp : p ∈ generatePlatforms (T : ℤ)) (hnf : p.type ≠ PlatformType.floor) :
    (∀ j, p.connections.left = some j →
      ∃ q ∈ generatePlatforms (T : ℤ), q.id = j ∧ q.grid.row = p.grid.row ∧
        q.grid.col + 1 = p.grid.col) ∧
    (∀ j, p.connections.right = some j →
      ∃ q ∈ generatePlatforms (T : ℤ), q.id = j ∧ q.grid.row = p.grid.row ∧
        p.grid.col < q.grid.col ∧
        ∀ r ∈ rowListOf (runScan (T : ℤ)) p.grid.row, p.grid.col < r.grid.col →
          q.grid.col ≤ r.grid.col) := by
  rw [generatePlatforms_eq] at hp
  obtain ⟨raw, hraw, rfl⟩ := List.mem_map.mp hp
  obtain ⟨h1, h2, -, -⟩ := connect_conns_sound (T : ℤ) raw hraw
  rw [connectPlatform_grid]
  constructor
  · intro j hj
    obtain ⟨q, hq, hid, hrow, hcol⟩ := h1 j hj
    obtain ⟨q2, hq2, hid2, hgrid2⟩ := target_lift (T : ℤ) j q hq hid
    exact ⟨q2, hq2, hid2, by rw [hgrid2]; exact hrow, by rw [hgrid2]; exact hcol⟩
  · intro j hj
    obtain ⟨q, hq, hid, hrow, hcol, hmin⟩ := h2 j hj
    obtain ⟨q2, hq2, hid2, hgrid2⟩ := target_lift (T : ℤ) j q hq hid
    exact ⟨q2, hq2, hid2, by rw [hgrid2]; exact hrow, by rw [hgrid2]; exact hcol,
      by rw [hgrid2]; exact hmin⟩

/-- C4 counterexample, both directions, in the 5-track build: the medal
at `(row 1, col 4)` has a null left connection although three occupied
row-1 nodes (columns 0, 1, 2) lie strictly to its left, and the window at
`(row 0, col 2)` has a null right connection although the window at
`(row 0, col 5)` is an occupied node strictly to its right. -/
theorem adjacency_counterexample :
    let ps := generatePlatforms 5
    (getPlatform ps 1).map (fun p => p.type) = some PlatformType.medal ∧
      (getPlatform ps 1).map (fun p => (p.grid.row, p.grid.col)) = some (1, 4) ∧
      (getPlatform ps 1).map (fun p => p.connections.left) = some none ∧
      ps.countP (fun p => p.grid.row == 1 && decide (p.grid.col < 4)
        && (p.type != PlatformType.floor)) = 3 ∧
      (getPlatform ps 0).map (fun p => (p.grid.row, p.grid.col)) = some (0, 2) ∧
      (getPlatform ps 0).map (fun p => p.connections.right) = some none ∧
      (getPlatform ps 2).map (fun p => (p.grid.row, p.grid.col)) = some (0, 5) := by
  with_unfolding_all decide

/-- C4 witness: the amended adjacency rule applied to shelf 5 at
`(row 0, col 1)` of the 5-track build, whose left connection is shelf 3
in column 0. -/
theorem adjacency_soundness_witness :
    ((⟨5, ⟨0, 1⟩, ⟨-3/2, 21/10, 1/10⟩, ⟨some 3, some 0, none, some 6⟩,
        PlatformType.shelf, [2]⟩ : Platform) ∈ generatePlatforms 5 ∧
      PlatformType.shelf ≠ PlatformType.floor) ∧
    (∃ q ∈ generatePlatforms 5, q.id = 3 ∧ q.grid.row = 0 ∧ q.grid.col + 1 = 1) :=
  ⟨⟨by with_unfolding_all decide, by decide⟩,
    (adjacency_soundness 5
      ⟨5, ⟨0, 1⟩, ⟨-3/2, 21/10, 1/10⟩, ⟨some 3, some 0, none, some 6⟩,
        PlatformType.shelf, [2]⟩
      (by with_unfolding_all decide) (by decide)).1 3 rfl⟩

/-! ## C1: graph totality -/

theorem flatten_map_singleton (l : List ℕ) : (l.map (fun i => [i])).flatten = l := by
  induction l with
  | nil => rfl
  | cons a l ih =>
    rw [List.map_cons, List.flatten_cons, ih]
    rfl

theorem gen_map_records (T : ℕ) :
    (generatePlatforms (T : ℤ)).map (fun p => p.records)
      = [[], [], []] ++ (List.range T).map (fun i => [i]) ++ [[]] := by
  rw [generatePlatforms_eq, List.map_map]
  have hcongr : (prePlatforms (T : ℤ)).map
        ((fun p => p.records) ∘ connectPlatform (prePlatforms (T : ℤ)) (runScan (T : ℤ)))
      = (prePlatforms (T : ℤ)).map (fun p => p.records) :=
    List.map_congr_left (fun a _ => connectPlatform_records _ _ a)
  rw [hcongr]
  show (specialBuild.platforms ++ (runScan (T : ℤ)).shelves ++ [floorPlatform]).map _ = _
  rw [List.map_append, List.map_append]
  rw [show (specialBuild.platforms).map (fun p => p.records) = [[], [], []] from rfl]
  rw [(runScan_scanOk (T : ℤ)).2.1, runScan_trackIndex]
  rfl

theorem countP_range_singleton (T i : ℕ) (h : i < T) :
    (List.range T).countP (fun j => decide (i ∈ [j])) = 1 := by
  induction T with
  | zero => omega
  | succ T ih =>
    rw [List.range_succ, List.countP_append, List.countP_cons, List.countP_nil]
    rcases Nat.lt_or_ge i T with hlt | hge
    · rw [ih hlt]
      have hd : (decide (i ∈ [T]) = false) := by
        simp only [List.mem_singleton, decide_eq_false_iff_not]
        omega
      rw [hd]
      rfl
    · have h0 : (List.range T).countP (fun j => decide (i ∈ [j])) = 0 := by
        apply List.countP_eq_zero.mpr
        intro j hj
        have hjT := List.mem_range.mp hj
        simp only [List.mem_singleton, decide_eq_true_eq]
        omega
      have hd : (decide (i ∈ [T]) = true) := by
        simp only [List.mem_singleton, decide_eq_true_eq]
        omega
      rw [h0, hd]
      rfl

theorem gen_records_count (T : ℕ) (i : ℕ) (h : i < T) :
    (generatePlatforms (T : ℤ)).countP (fun p => decide (i ∈ p.records)) = 1 := by
  have h1 : (generatePlatforms (T : ℤ)).countP (fun p => decide (i ∈ p.records))
      = ((generatePlatforms (T : ℤ)).map (fun p => p.records)).countP
          (fun rs => decide (i ∈ rs)) :=
    (List.countP_map (fun rs => decide (i ∈ rs)) (fun p : Platform => p.records)
      (generatePlatforms (T : ℤ))).symm
  rw [h1, gen_map_records T, List.countP_append, List.countP_append]
  have h2 : (((List.range T).map (fun i => [i])).countP (fun rs => decide (i ∈ rs)))
      = (List.range T).countP (fun j => decide (i ∈ [j])) :=
    List.countP_map (fun rs => decide (i ∈ rs)) (fun i : ℕ => [i]) (List.range T)
  rw [h2, countP_range_singleton T i h]
  rfl

theorem gen_floor_count (t : ℤ) :
    (generatePlatforms t).countP (fun p => p.type == PlatformType.floor) = 1 := by
  rw [generatePlatforms_eq]
  rw [List.countP_map]
  have hcongr : (prePlatforms t).countP
        ((fun p => p.type == PlatformType.floor) ∘ connectPlatform (prePlatforms t)
          (runScan t))
      = (prePlatforms t).countP (fun p => p.type == PlatformType.floor) := by
    apply List.countP_congr
    intro p hp
    show ((connectPlatform _ _ p).type == PlatformType.floor) = true
      ↔ (p.type == PlatformType.floor) = true
    rw [connectPlatform_type]
  rw [hcongr]
  show (specialBuild.platforms ++ (runScan t).shelves ++ [floorPlatform]).countP _ = 1
  rw [List.countP_append, List.countP_append]
  have hsp : (specialBuild.platforms).countP
      (fun p => p.type == PlatformType.floor) = 0 := by
    rw [specialBuild_platforms]
    rfl
  have hsh : ((runScan t).shelves).countP
      (fun p => p.type == PlatformType.floor) = 0 := by
    apply List.countP_eq_zero.mpr
    intro p hp
    rw [((runScan_scanOk t).1 p hp).1]
    exact fun hc => Bool.noConfusion hc
  rw [hsp, hsh]
  rfl

theorem gen_conns_closed (t : ℤ) (p : Platform) (hp : p ∈ generatePlatforms t) (j : ℤ)
    (hj : p.connections.left = some j ∨ p.connections.right = some j ∨
      p.connections.up = some j ∨ p.connections.down = some j) :
    j ∈ (generatePlatforms t).map (fun q => q.id) := by
  rw [generatePlatforms_eq] at hp
  obtain ⟨raw, hraw, rfl⟩ := List.mem_map.mp hp
  obtain ⟨h1, h2, h3, h4⟩ := connect_conns_sound t raw hraw
  have hex : ∃ q ∈ prePlatforms t, q.id = j := by
    rcases hj with hj | hj | hj | hj
    · obtain ⟨q, hq, hid, -, -⟩ := h1 j hj
      exact ⟨q, hq, hid⟩
    · obtain ⟨q, hq, hid, -, -, -⟩ := h2 j hj
      exact ⟨q, hq, hid⟩
    · exact h3 j hj
    · exact h4 j hj
  obtain ⟨q, hq, hid⟩ := hex
  obtain ⟨q2, hq2, hid2, -⟩ := target_lift t j q hq hid
  exact List.mem_map.mpr ⟨q2, hq2, hid2⟩

/-- C1: for every track count `T ≥ 0`, the build places the track indices
`0..T-1` exactly once across all `records` lists (their concatenation, in
build order, is exactly `0..T-1`, and each index belongs to exactly one
platform), contains exactly one floor platform and its id is the floor
sentinel, and every non-null connection id refers to a platform of the
built set. -/
theorem graph_totality (T : ℕ) :
    ((generatePlatforms (T : ℤ)).map (fun p => p.records)).flatten = List.range T ∧
    (∀ i, i < T →
      (generatePlatforms (T : ℤ)).countP (fun p => decide (i ∈ p.records)) = 1) ∧
    (generatePlatforms (T : ℤ)).countP (fun p => p.type == PlatformType.floor) = 1 ∧
    (∃ p ∈ generatePlatforms (T : ℤ), p.type = PlatformType.floor ∧
      p.id = FLOOR_PLATFORM_ID) ∧
    (∀ p ∈ generatePlatforms (T : ℤ), ∀ j : ℤ,
      (p.connections.left = some j ∨ p.connections.right = some j ∨
        p.connections.up = some j ∨ p.connections.down = some j) →
      j ∈ (generatePlatforms (T : ℤ)).map (fun q => q.id)) := by
  refine ⟨?_, ?_, gen_floor_count (T : ℤ), ?_, ?_⟩
  · rw [gen_map_records T, List.flatten_append, List.flatten_append,
      flatten_map_singleton]
    simp
  · exact fun i hi => gen_records_count T i hi
  · obtain ⟨p, hp, hid, hty⟩ := generatePlatforms_floor_mem (T : ℤ)
    exact ⟨p, hp, hty, hid⟩
  · exact fun p hp j hj => gen_conns_closed (T : ℤ) p hp j hj

/-- C1 witness: the totality statement instantiated on the 5-track build,
with the per-index and closure clauses applied at concrete inputs. -/
theorem graph_totality_witness :
    ((generatePlatforms 5).map (fun p => p.records)).flatten = List.range 5 ∧
      (generatePlatforms 5).countP (fun p => decide (2 ∈ p.records)) = 1 ∧
      (generatePlatforms 5).countP (fun p => p.type == PlatformType.floor) = 1 ∧
      (∃ p ∈ generatePlatforms 5, p.type = PlatformType.floor ∧
        p.id = FLOOR_PLATFORM_ID) ∧
      (5 : ℤ) ∈ (generatePlatforms 5).map (fun q => q.id) :=
  ⟨(graph_totality 5).1, (graph_totality 5).2.1 2 (by decide),
    (graph_totality 5).2.2.1, (graph_totality 5).2.2.2.1,
    (graph_totality 5).2.2.2.2
      ⟨3, ⟨0, 0⟩, ⟨-4, 21/10, 1/10⟩, ⟨none, some 5, none, some 4⟩,
        PlatformType.shelf, [0]⟩
      (by with_unfolding_all decide) 5 (Or.inr (Or.inl rfl))⟩

end RecordRoom
